import Mathlib

/-!
Verification of `asm_att` (src/src/lib.rs).

The crate's functional surface is three declarative macros — `asm_att!`,
`global_asm_att!`, `naked_asm_att!` — each matching `( $($arg:tt)+ )` and
expanding to the corresponding compiler facility (`::core::arch::asm!`,
`global_asm!`, `naked_asm!`) applied to the caller's token sequence with
`, options(att_syntax)` appended.

We model a macro invocation's argument list as a `List Tok`, where
`Tok.optAtt` stands for the option clause `options(att_syntax)` and
`Tok.tt i` for any other caller-supplied token tree.  A macro expansion
is a facility name paired with the argument tokens handed to it; matching
failure (the `+` repetition requires at least one token tree) is `none`.

The doc-example and test routines of the crate are x86-64 assembly blocks
written in AT&T syntax; they are embedded below instruction by instruction,
with 64-bit (resp. 32-bit) registers as naturals reduced mod 2^64
(resp. 2^32) and signed values as mathematical integers obtained by the
two's-complement reading of the register.
-/

namespace AsmAtt

/-- A token tree in a macro invocation.  `optAtt` is the option clause
`options(att_syntax)`; `tt i` is an arbitrary other caller token tree,
identified abstractly by a number. -/
inductive Tok where
  | tt (i : Nat)
  | optAtt
deriving DecidableEq, Repr

/-- The three underlying compiler assembly-embedding facilities. -/
inductive Facility where
  | asm
  | global_asm
  | naked_asm
deriving DecidableEq, Repr

/-- A macro expansion: which compiler facility is invoked, and the
argument token sequence handed to it. -/
structure Expansion where
  facility : Facility
  args : List Tok
deriving DecidableEq, Repr

/-- The common forwarding pattern of the three macros
(src/src/lib.rs lines 138-157): match `( $($arg:tt)+ )` — at least one
token tree, otherwise the macro does not match — and emit the facility
applied to the caller tokens followed by `options(att_syntax)`. -/
def expandWith (f : Facility) (args : List Tok) : Option Expansion :=
  if args = [] then none
  else some ⟨f, args ++ [Tok.optAtt]⟩

/-- `asm_att!` (src/src/lib.rs lines 138-143). -/
def asm_att (args : List Tok) : Option Expansion :=
  expandWith Facility.asm args

/-- `global_asm_att!` (src/src/lib.rs lines 145-150). -/
def global_asm_att (args : List Tok) : Option Expansion :=
  expandWith Facility.global_asm args

/-- `naked_asm_att!` (src/src/lib.rs lines 152-157). -/
def naked_asm_att (args : List Tok) : Option Expansion :=
  expandWith Facility.naked_asm args

/-! ### Machine integer helpers -/

/-- The 64-bit register image of a signed integer (two's complement). -/
def toU64 (x : Int) : Nat := (x % (2 ^ 64 : Int)).toNat

/-- Read a 64-bit register as a signed integer (two's complement). -/
def ofU64asI64 (n : Nat) : Int :=
  let m : Nat := n % 2 ^ 64
  if m < 2 ^ 63 then (m : Int) else (m : Int) - 2 ^ 64

/-- The 32-bit register image of a signed integer (two's complement). -/
def toU32 (x : Int) : Nat := (x % (2 ^ 32 : Int)).toNat

/-- Read a 32-bit register as a signed integer (two's complement). -/
def ofU32asI32 (n : Nat) : Int :=
  let m : Nat := n % 2 ^ 32
  if m < 2 ^ 31 then (m : Int) else (m : Int) - 2 ^ 32

/-! ### `add` (doc example, src/src/lib.rs lines 13-25)

```
asm_att!(
    "mov {0}, {2}",
    "add {1}, {2}",
    in(reg) left, in(reg) right, out(reg) result)
```
In AT&T syntax the source operand comes first: `mov {0}, {2}` copies
`left` into the output register, `add {1}, {2}` adds `right` into it.
Registers are 64 bits wide (`i64` operands). -/

/-- The block's effect: `result = left + right` on 64-bit registers. -/
def add (left right : Int) : Int :=
  ofU64asI64 ((toU64 left + toU64 right) % 2 ^ 64)

/-! ### `str_compare` (doc example, src/src/lib.rs lines 27-46)

```
if a.len() != b.len() { return false; }
asm_att!(
    "cld", "repe cmpsb", "sete {res}",
    in("rsi") a.as_ptr(), in("rdi") b.as_ptr(), in("rcx") len,
    res=lateout(reg_byte) result)
result != 0
```
`repe cmpsb` compares byte pairs at `rsi`/`rdi`, decrementing `rcx`,
while the bytes are equal and `rcx ≠ 0`; each comparison sets ZF.
When `rcx` is 0 on entry the instruction performs no iteration and
leaves the flags unchanged, so `sete` then reads whatever ZF value the
surrounding code left behind.  That ambient ZF is therefore an implicit
input of the block and appears below as the parameter `zf0`
(`cld` only clears DF, never ZF). -/

/-- Final ZF after `repe cmpsb` with count `rcx`, byte strings `a`, `b`
at `rsi`, `rdi`, and incoming flag `zf0`. -/
def repeCmpsbZF (zf0 : Bool) : Nat → List Nat → List Nat → Bool
  | 0, _, _ => zf0
  | _ + 1, [], _ => zf0
  | _ + 1, _ :: _, [] => zf0
  | k + 1, x :: xs, y :: ys =>
    if x = y then repeCmpsbZF true k xs ys else false

/-- `str_compare`.  First component: whether control reached the inline
assembly block (false means the early length-mismatch return fired);
second component: the returned boolean (`sete` materialises ZF into
`result`, and the function returns `result != 0`). -/
def str_compare (zf0 : Bool) (a b : List Nat) : Bool × Bool :=
  if a.length ≠ b.length then (false, false)
  else
    (true, (if repeCmpsbZF zf0 a.length a b then (1 : Int) else 0) != 0)

/-- The bytes of the string literal "hello". -/
def hello : List Nat := [104, 101, 108, 108, 111]

/-- The bytes of the string literal "world". -/
def world : List Nat := [119, 111, 114, 108, 100]

/-! ### `counter2` (doc example, src/src/lib.rs lines 48-65)

```
let mut counter = 0;
asm_att!(
    "cmp $0, {n}", "je 2f",
    "1:", "inc {c}", "cmp {n}, {c}", "jne 1b",
    "2:",
    c=inout(reg) counter, n=in(reg) number, options(nostack))
counter
```
AT&T operand order: `cmp $0, {n}` computes `n - 0`, so `je 2f` skips the
loop exactly when `number = 0`.  The loop body increments the 64-bit
counter register and repeats while `c ≠ n`. -/

/-- One pass of the `1:` loop: `inc {c}` then `cmp {n}, {c}` / `jne 1b`.
`fuel` bounds the number of iterations the model unfolds; `2 ^ 64` steps
are always sufficient for a loop that exits on 64-bit equality reached by
incrementing. -/
def counterLoop : Nat → Nat → Nat → Nat
  | 0, _, c => c
  | fuel + 1, n, c =>
    if (c + 1) % 2 ^ 64 = n then (c + 1) % 2 ^ 64
    else counterLoop fuel n ((c + 1) % 2 ^ 64)

/-- `counter2` on a `u64` input (register image `number % 2 ^ 64`). -/
def counter2 (number : Nat) : Nat :=
  if number % 2 ^ 64 = 0 then 0
  else counterLoop (2 ^ 64) (number % 2 ^ 64) 0

/-! ### `slice_copy2` (doc example, src/src/lib.rs lines 67-93)

```
if src_len != dst_len { panic!(...); }
asm_att!(
    "cld",
    "movq {src}, %rsi", "movq {dst}, %rdi", "movq {n}, %rcx",
    "rep movsb",
    src=in(reg) src.as_ptr(), dst=in(reg) dst.as_mut_ptr(),
    n=in(reg) dst_len as u64,
    out("rsi") _, out("rdi") _, out("rcx") _)
```
`rep movsb` copies `rcx` bytes from `[rsi]` to `[rdi]` (DF = 0 after
`cld`, so pointers ascend). -/

/-- `rep movsb`: overwrite the first `rcx` bytes of `dst` with those of
`src`, leaving any remainder of `dst` unchanged. -/
def repMovsb : Nat → List Nat → List Nat → List Nat
  | 0, _, dst => dst
  | _ + 1, [], dst => dst
  | _ + 1, _ :: _, [] => []
  | k + 1, s :: srest, _ :: drest => s :: repMovsb k srest drest

/-- `slice_copy2`.  First component: whether the function panicked (the
length-mismatch `panic!` fires before the assembly block, so the
destination bytes are returned unmodified in that case); second
component: the destination buffer after the call. -/
def slice_copy2 (src dst : List Nat) : Bool × List Nat :=
  if src.length ≠ dst.length then (true, dst)
  else (false, repMovsb dst.length src dst)

/-! UTF-8 reinterpretation, modelling `str::from_utf8` (used by
`slice_copy2_works`, src/src/lib.rs lines 124-128): validate a byte
sequence per RFC 3629 and return its Unicode scalar values, or `none`
if the bytes are not valid UTF-8. -/

/-- UTF-8 decoding with explicit fuel; each step consumes at least one
byte, so fuel equal to the list length always suffices. -/
def utf8DecodeFuel : Nat → List Nat → Option (List Nat)
  | _, [] => some []
  | 0, _ :: _ => none
  | f + 1, b1 :: rest =>
    if b1 < 0x80 then
      (utf8DecodeFuel f rest).map (fun cs => b1 :: cs)
    else if b1 < 0xC2 then none
    else if b1 < 0xE0 then
      match rest with
      | b2 :: rest2 =>
        if 0x80 ≤ b2 ∧ b2 < 0xC0 then
          (utf8DecodeFuel f rest2).map
            (fun cs => ((b1 - 0xC0) * 0x40 + (b2 - 0x80)) :: cs)
        else none
      | [] => none
    else if b1 < 0xF0 then
      match rest with
      | b2 :: b3 :: rest3 =>
        let lo2 : Nat := if b1 = 0xE0 then 0xA0 else 0x80
        let hi2 : Nat := if b1 = 0xED then 0xA0 else 0xC0
        if (lo2 ≤ b2 ∧ b2 < hi2) ∧ (0x80 ≤ b3 ∧ b3 < 0xC0) then
          (utf8DecodeFuel f rest3).map
            (fun cs =>
              ((b1 - 0xE0) * 0x1000 + (b2 - 0x80) * 0x40 + (b3 - 0x80)) :: cs)
        else none
      | _ => none
    else if b1 < 0xF5 then
      match rest with
      | b2 :: b3 :: b4 :: rest4 =>
        let lo2 : Nat := if b1 = 0xF0 then 0x90 else 0x80
        let hi2 : Nat := if b1 = 0xF4 then 0x90 else 0xC0
        if (lo2 ≤ b2 ∧ b2 < hi2) ∧ (0x80 ≤ b3 ∧ b3 < 0xC0) ∧
            (0x80 ≤ b4 ∧ b4 < 0xC0) then
          (utf8DecodeFuel f rest4).map
            (fun cs =>
              ((b1 - 0xF0) * 0x40000 + (b2 - 0x80) * 0x1000 +
                (b3 - 0x80) * 0x40 + (b4 - 0x80)) :: cs)
        else none
      | _ => none
    else none

/-- Reinterpret a byte sequence as UTF-8 text (its scalar values). -/
def utf8Decode (bs : List Nat) : Option (List Nat) :=
  utf8DecodeFuel bs.length bs

/-! ### `add2` (test, src/src/lib.rs lines 163-175)

```
global_asm_att!(r#"
    .global add2
    add2:
        movl %edi, %eax
        addl %esi, %eax
        ret
"#);
unsafe extern "C" { fn add2(a: i32, b: i32) -> i32; }
```
System V calling convention: `a` in `edi`, `b` in `esi`, result in
`eax`; `movl`/`addl` are 32-bit operations. -/

/-- `add2`: `eax = edi; eax += esi; ret`. -/
def add2 (a b : Int) : Int :=
  ofU32asI32 ((toU32 a + toU32 b) % 2 ^ 32)

/-! ### `return_1000` and `jmp2` (test, src/src/lib.rs lines 177-192)

```
unsafe extern "C" fn return_1000() -> i32 {
    naked_asm_att!("mov $1000, %eax", "ret", options(raw));
}
unsafe extern "C" fn jmp2() -> i32 {
    naked_asm_att!("jmp {0}", "ret", sym return_1000);
}
```
`return_1000` loads the immediate 1000 into the 32-bit return register
and returns; `jmp2` tail-jumps to `return_1000`, so the value `jmp2`
returns is exactly the one `return_1000` placed in `eax`. -/

/-- `return_1000`: the `i32` left in `eax` by `mov $1000, %eax; ret`. -/
def return_1000 : Int := ofU32asI32 (1000 % 2 ^ 32)

/-- `jmp2`: `jmp return_1000` transfers control, so the returned value is
whatever `return_1000` returns (the trailing `ret` is unreachable). -/
def jmp2 : Int := return_1000

/-! ## Theorems -/

/-- Helper: on a non-empty token sequence, the forwarding pattern emits the
facility applied to the caller tokens with the option clause appended. -/
theorem expandWith_eq (f : Facility) (T : List Tok) (h : T ≠ []) :
    expandWith f T = some ⟨f, T ++ [Tok.optAtt]⟩ := by
  simp [expandWith, h]

/-- C1: for every non-empty caller token sequence `T`, each of the three
macros expands to exactly its underlying facility applied to `T`,
unmodified and in order, with `options(att_syntax)` appended as the last
element. -/
theorem forwarders_expand (T : List Tok) (h : T ≠ []) :
    asm_att T = some ⟨Facility.asm, T ++ [Tok.optAtt]⟩ ∧
    global_asm_att T = some ⟨Facility.global_asm, T ++ [Tok.optAtt]⟩ ∧
    naked_asm_att T = some ⟨Facility.naked_asm, T ++ [Tok.optAtt]⟩ :=
  ⟨expandWith_eq _ T h, expandWith_eq _ T h, expandWith_eq _ T h⟩

/-- C1 witness at the concrete one-token sequence `[tt 0]`. -/
theorem forwarders_expand_witness :
    ([Tok.tt 0] ≠ ([] : List Tok)) ∧
    (asm_att [Tok.tt 0] = some ⟨Facility.asm, [Tok.tt 0] ++ [Tok.optAtt]⟩ ∧
     global_asm_att [Tok.tt 0] =
       some ⟨Facility.global_asm, [Tok.tt 0] ++ [Tok.optAtt]⟩ ∧
     naked_asm_att [Tok.tt 0] =
       some ⟨Facility.naked_asm, [Tok.tt 0] ++ [Tok.optAtt]⟩) :=
  ⟨by decide, forwarders_expand [Tok.tt 0] (by decide)⟩

/-- C2 counterexample: when the caller's own token sequence already
contains `options(att_syntax)` (here `asm_att!(t, options(att_syntax))`),
the emitted argument list contains the flag twice — the macro appends
unconditionally and never deduplicates. -/
theorem att_flag_duplicated :
    (((asm_att [Tok.tt 0, Tok.optAtt]).getD
        ⟨Facility.asm, []⟩).args).count Tok.optAtt = 2 := by
  decide

/-- C2 (amended): each macro appends `options(att_syntax)` after the
caller's tokens as the last element and adds exactly one occurrence, so
the flag occurs once more than in the caller's sequence; it therefore
appears exactly once whenever the caller did not already supply it. -/
theorem att_flag_appended_once (T : List Tok) (h : T ≠ []) :
    asm_att T = some ⟨Facility.asm, T ++ [Tok.optAtt]⟩ ∧
    global_asm_att T = some ⟨Facility.global_asm, T ++ [Tok.optAtt]⟩ ∧
    naked_asm_att T = some ⟨Facility.naked_asm, T ++ [Tok.optAtt]⟩ ∧
    (T ++ [Tok.optAtt]).getLast? = some Tok.optAtt ∧
    (T ++ [Tok.optAtt]).count Tok.optAtt = T.count Tok.optAtt + 1 ∧
    (Tok.optAtt ∉ T → (T ++ [Tok.optAtt]).count Tok.optAtt = 1) := by
  refine ⟨expandWith_eq _ T h, expandWith_eq _ T h, expandWith_eq _ T h,
    List.getLast?_concat T, ?_, ?_⟩
  · simp [List.count_append]
  · intro hmem
    simp [List.count_append, List.count_eq_zero.mpr hmem]

/-- C2 witness at the concrete one-token sequence `[tt 0]`. -/
theorem att_flag_appended_once_witness :
    ([Tok.tt 0] ≠ ([] : List Tok)) ∧
    (asm_att [Tok.tt 0] = some ⟨Facility.asm, [Tok.tt 0] ++ [Tok.optAtt]⟩ ∧
     global_asm_att [Tok.tt 0] =
       some ⟨Facility.global_asm, [Tok.tt 0] ++ [Tok.optAtt]⟩ ∧
     naked_asm_att [Tok.tt 0] =
       some ⟨Facility.naked_asm, [Tok.tt 0] ++ [Tok.optAtt]⟩ ∧
     ([Tok.tt 0] ++ [Tok.optAtt]).getLast? = some Tok.optAtt ∧
     ([Tok.tt 0] ++ [Tok.optAtt]).count Tok.optAtt =
       ([Tok.tt 0] : List Tok).count Tok.optAtt + 1 ∧
     (Tok.optAtt ∉ ([Tok.tt 0] : List Tok) →
       ([Tok.tt 0] ++ [Tok.optAtt]).count Tok.optAtt = 1)) :=
  ⟨by decide, att_flag_appended_once [Tok.tt 0] (by decide)⟩

/-- C3: the macros match any non-empty token sequence and perform no
validation of their own — expansion always succeeds, and the forwarded
argument list begins with exactly the caller's tokens, unmodified. -/
theorem forwarders_no_validation (T : List Tok) (h : T ≠ []) :
    (asm_att T).isSome = true ∧
    (global_asm_att T).isSome = true ∧
    (naked_asm_att T).isSome = true ∧
    ((asm_att T).getD ⟨Facility.asm, []⟩).args.take T.length = T ∧
    ((global_asm_att T).getD ⟨Facility.asm, []⟩).args.take T.length = T ∧
    ((naked_asm_att T).getD ⟨Facility.asm, []⟩).args.take T.length = T := by
  simp [asm_att, global_asm_att, naked_asm_att, expandWith, h, List.take_left]

/-- C3 witness at the concrete two-token sequence `[tt 0, tt 1]`. -/
theorem forwarders_no_validation_witness :
    ([Tok.tt 0, Tok.tt 1] ≠ ([] : List Tok)) ∧
    ((asm_att [Tok.tt 0, Tok.tt 1]).isSome = true ∧
     (global_asm_att [Tok.tt 0, Tok.tt 1]).isSome = true ∧
     (naked_asm_att [Tok.tt 0, Tok.tt 1]).isSome = true ∧
     ((asm_att [Tok.tt 0, Tok.tt 1]).getD
        ⟨Facility.asm, []⟩).args.take ([Tok.tt 0, Tok.tt 1] : List Tok).length =
       [Tok.tt 0, Tok.tt 1] ∧
     ((global_asm_att [Tok.tt 0, Tok.tt 1]).getD
        ⟨Facility.asm, []⟩).args.take ([Tok.tt 0, Tok.tt 1] : List Tok).length =
       [Tok.tt 0, Tok.tt 1] ∧
     ((naked_asm_att [Tok.tt 0, Tok.tt 1]).getD
        ⟨Facility.asm, []⟩).args.take ([Tok.tt 0, Tok.tt 1] : List Tok).length =
       [Tok.tt 0, Tok.tt 1]) :=
  ⟨by decide, forwarders_no_validation [Tok.tt 0, Tok.tt 1] (by decide)⟩

/-- Helper: with `c < n < 2 ^ 64` and at least `n - c` iterations of fuel,
the counting loop exits with the counter register equal to `n`. -/
theorem counterLoop_eq :
    ∀ (fuel n c : Nat), c < n → n < 2 ^ 64 → n - c ≤ fuel →
      counterLoop fuel n c = n := by
  intro fuel
  induction fuel with
  | zero => intro n c hc _ hf; omega
  | succ f ih =>
    intro n c hc hn hf
    have h1 : (c + 1) % 2 ^ 64 = c + 1 := Nat.mod_eq_of_lt (by omega)
    unfold counterLoop
    by_cases he : c + 1 = n
    · rw [if_pos (h1.trans he), h1, he]
    · rw [if_neg (fun hx => he (h1 ▸ hx)), h1]
      exact ih n (c + 1) (by omega) hn (by omega)

/-- C4: for every `n < 200`, the counting-loop block `counter2` returns
`n`. -/
theorem counter2_counts (n : Nat) (h : n < 200) : counter2 n = n := by
  have hn : n % 2 ^ 64 = n := Nat.mod_eq_of_lt (by omega)
  by_cases h0 : n = 0
  · simp [counter2, h0]
  · have hne : counter2 n = counterLoop (2 ^ 64) n 0 := by
      unfold counter2
      rw [hn, if_neg h0]
    rw [hne]
    exact counterLoop_eq (2 ^ 64) n 0 (by omega) (by omega) (by omega)

/-- C4 witness at the concrete input `n = 3`. -/
theorem counter2_counts_witness : 3 < 200 ∧ counter2 3 = 3 :=
  ⟨by decide, counter2_counts 3 (by decide)⟩

/-- C5: evaluation of `str_compare` (first component: whether the inline
assembly was reached).  Identical non-empty strings compare equal and
differing ones unequal, regardless of the ambient ZF; length mismatch
returns not-equal without reaching the assembly; but on two empty strings
`repe cmpsb` is a no-op and `sete` reads the ambient flag, so the result
is `zf0` itself — with ZF clear, the code returns not-equal, contradicting
the claim (and the crate's own `str_compare_works` assertion). -/
theorem str_compare_eval :
    str_compare false [] [] = (true, false) ∧
    str_compare true [] [] = (true, true) ∧
    str_compare false hello hello = (true, true) ∧
    str_compare true hello hello = (true, true) ∧
    str_compare false hello world = (true, false) ∧
    str_compare true hello world = (true, false) ∧
    str_compare false hello [] = (false, false) ∧
    str_compare true [104] hello = (false, false) := by
  decide

/-- Helper: copying `dst.length` bytes from `src` over `dst` when the
lengths agree reproduces `src` exactly. -/
theorem repMovsb_copy :
    ∀ (src dst : List Nat), src.length = dst.length →
      repMovsb dst.length src dst = src := by
  intro src
  induction src with
  | nil =>
    intro dst h
    cases dst with
    | nil => rfl
    | cons d drest => simp at h
  | cons s srest ih =>
    intro dst h
    cases dst with
    | nil => simp at h
    | cons d drest =>
      simp only [List.length_cons, repMovsb]
      have hlen : srest.length = drest.length := by
        simpa using h
      rw [ih drest hlen]

/-- C6: for equal-length buffers, `slice_copy2` completes without
panicking and the destination afterwards equals the source byte-for-byte;
consequently both buffers also decode to the same UTF-8 text. -/
theorem slice_copy2_copies (src dst : List Nat)
    (h : src.length = dst.length) :
    slice_copy2 src dst = (false, src) ∧
    utf8Decode (slice_copy2 src dst).2 = utf8Decode src := by
  have h2 : slice_copy2 src dst = (false, src) := by
    simp [slice_copy2, h, repMovsb_copy src dst h]
  exact ⟨h2, by rw [h2]⟩

/-- C6 witness: copying the two bytes of "Hi" over a zeroed buffer. -/
theorem slice_copy2_copies_witness :
    ([72, 105] : List Nat).length = ([0, 0] : List Nat).length ∧
    (slice_copy2 [72, 105] [0, 0] = (false, [72, 105]) ∧
     utf8Decode (slice_copy2 [72, 105] [0, 0]).2 = utf8Decode [72, 105]) :=
  ⟨by decide, slice_copy2_copies [72, 105] [0, 0] (by decide)⟩

/-- C7: the two-register `add` block computes the sums the crate's
`add_works` test expects. -/
theorem add_works :
    add 2 3 = 5 ∧ add 5 3 = 8 ∧ add (-1) 1 = 0 ∧ add 100 200 = 300 := by
  decide

/-- C8: the global-assembly routine `add2` computes the sums the crate's
`add2_works` test expects. -/
theorem add2_works : add2 1 5 = 6 ∧ add2 (-5) 5 = 0 := by
  decide

/-- C9: `jmp2` jumps to `return_1000`, so it returns exactly the constant
1000 that `return_1000` loads into the return register. -/
theorem jmp2_returns_1000 :
    jmp2 = return_1000 ∧ return_1000 = 1000 ∧ jmp2 = 1000 := by
  decide

/-- C10: when the buffer lengths differ, `slice_copy2` panics before
reaching the assembly block and the destination bytes are unchanged. -/
theorem slice_copy2_panics (src dst : List Nat)
    (h : src.length ≠ dst.length) :
    slice_copy2 src dst = (true, dst) := by
  simp [slice_copy2, h]

/-- C10 witness: a one-byte source and an empty destination. -/
theorem slice_copy2_panics_witness :
    ([1] : List Nat).length ≠ ([] : List Nat).length ∧
    slice_copy2 [1] [] = (true, []) :=
  ⟨by decide, slice_copy2_panics [1] [] (by decide)⟩

end AsmAtt
